import Mathlib

/-!
Shallow embedding of the content-calendar synthesis algorithm and the
time-triggered posting scheduler of the SocialMediaContentCreator
repository (LinkedIn personal-branding agent).

Dates are modelled as natural numbers (days since an epoch chosen so that
day 0 is a Sunday); moment's `.day()` is then `d % 7` with 0 = Sunday and
6 = Saturday, and adding one calendar day is `d + 1`.  The start date
("today") is a parameter, so every weekday alignment is covered.
Randomness (`shuffleArray`, which permutes its input) is modelled by an
explicit shuffle parameter, quantified over all permutation-producing
functions in the theorems.  moment's `.date()` (day of month) is modelled
by an abstract parameter `dom`, used only by `selectOptimalTime`.
-/

namespace SMCC

/-- moment's `format('dddd')` on a date whose `.day()` is `d % 7`
(0 = Sunday … 6 = Saturday). -/
def dowName (d : Nat) : String :=
  match d % 7 with
  | 0 => "Sunday"
  | 1 => "Monday"
  | 2 => "Tuesday"
  | 3 => "Wednesday"
  | 4 => "Thursday"
  | 5 => "Friday"
  | _ => "Saturday"

/-- The weekend test of `createContentCalendar`:
`postDate.day() === 0 || postDate.day() === 6`. -/
def isWeekend (d : Nat) : Bool := d % 7 == 0 || d % 7 == 6

/-- The hashtag pools produced by `developHashtagStrategy`
(src/src/graph/nodes/contentStrategist.js).  An absent/falsy `primary`
is modelled as the empty string (JS `if (hashtagStrategy.primary)` is
false for `undefined` and `""`). -/
structure HashtagStrategy where
  primary : String
  secondary : List String
  trending : List String
  general : List String
  custom : List String
deriving Repr, DecidableEq

/-- The posting-schedule preferences produced by `createPostingSchedule`. -/
structure PostingSchedule where
  optimalDays : List String
  optimalTimes : List String
deriving Repr, DecidableEq

/-- The strategy fields consumed by `createContentCalendar`.  `contentMix`
is a JS object, i.e. an association list in insertion order
(`Object.entries` iterates in that order); percentages are integers. -/
structure Strategy where
  contentMix : List (String × Int)
  contentThemes : List String
  hashtagStrategy : HashtagStrategy
  postingSchedule : PostingSchedule
deriving Repr, DecidableEq

/-- One calendar entry, as built in the loop body of
`createContentCalendar`.  `date` is the epoch-day number of `postDate`;
`dayOfWeek` is its `format('dddd')` name. -/
structure CalendarEntry where
  day : Nat
  date : Nat
  dayOfWeek : String
  contentType : String
  theme : String
  hashtags : List String
  optimalTime : String
  status : String
deriving Repr, DecidableEq

/-- `Math.round((percentage / 100) * 20)` for an integer percentage `p`,
i.e. `Math.round(p / 5)`.  For integer `p` the exact value `p / 5` never
has fractional part 1/2, so JS rounding equals `⌊p/5 + 1/2⌋ = ⌊(2p+5)/10⌋`
(floor division). -/
def jsRoundDiv5 (p : Int) : Int := Int.fdiv (2 * p + 5) 10

/-- The weighted pool built by `selectContentType`: for each
`Object.entries(contentMix)` pair, push the type `count` times where
`count = Math.round((percentage / 100) * 20)` (a non-positive count
pushes nothing). -/
def typesPool (contentMix : List (String × Int)) : List String :=
  contentMix.flatMap (fun e => List.replicate (jsRoundDiv5 e.2).toNat e.1)

/-- `selectContentType(contentMix, day)`: shuffle the pool and take
`shuffled[day % shuffled.length] || 'industryInsights'`.  With an empty
pool, `day % 0` is `NaN` and the index is `undefined`; `|| 'industryInsights'`
also replaces an empty-string element.  The per-call shuffle outcome is
the `shuffle` parameter applied to the pool. -/
def selectContentType (contentMix : List (String × Int)) (day : Nat)
    (shuffle : List String → List String) : String :=
  let shuffled := shuffle (typesPool contentMix)
  if shuffled.length = 0 then "industryInsights"
  else
    let v := shuffled.getD (day % shuffled.length) ""
    if v = "" then "industryInsights" else v

/-- `selectTheme(themes, day)`. -/
def selectTheme (themes : List String) (day : Nat) : String :=
  if themes.length = 0 then "Professional Development"
  else themes.getD (day % themes.length) ""

/-- `selectHashtags(hashtagStrategy, day)`: primary (when truthy), one
rotating secondary, one rotating trending, the first two general tags,
then `slice(0, 5)`.  No deduplication is performed by the source. -/
def selectHashtags (hs : HashtagStrategy) (day : Nat) : List String :=
  let l1 := if hs.primary = "" then [] else [hs.primary]
  let l2 := if hs.secondary.length = 0 then []
            else [hs.secondary.getD (day % hs.secondary.length) ""]
  let l3 := if hs.trending.length = 0 then []
            else [hs.trending.getD (day % hs.trending.length) ""]
  (l1 ++ l2 ++ l3 ++ hs.general.take 2).take 5

/-- `selectOptimalTime(postingSchedule, postDate)`; `dom` abstracts
moment's `.date()` (day of month) for the given epoch day. -/
def selectOptimalTime (ps : PostingSchedule) (postDate : Nat) (dom : Nat → Nat) : String :=
  if ps.optimalDays.contains (dowName postDate) then
    ps.optimalTimes.getD (dom postDate % ps.optimalTimes.length) ""
  else "10:00 AM"

/-- `createContentCalendar(strategy, duration)`: loop `day = 1 … duration`
over consecutive calendar days starting today (`startDay`), `continue`
on weekends, otherwise emit an entry.  `shuffle day` is the fresh
`shuffleArray` outcome drawn inside `selectContentType` on that
iteration. -/
def createContentCalendar (strategy : Strategy) (duration : Nat) (startDay : Nat)
    (shuffle : Nat → List String → List String) (dom : Nat → Nat) : List CalendarEntry :=
  (List.range duration).filterMap (fun i =>
    let day := i + 1
    let postDate := startDay + i
    if isWeekend postDate then none
    else some
      { day := day
        date := postDate
        dayOfWeek := dowName postDate
        contentType := selectContentType strategy.contentMix day (shuffle day)
        theme := selectTheme strategy.contentThemes day
        hashtags := selectHashtags strategy.hashtagStrategy day
        optimalTime := selectOptimalTime strategy.postingSchedule postDate dom
        status := "planned" })

/-- Key lookup in a JS object / `Map` modelled as an association list in
insertion order. -/
def objGet {α : Type} (m : List (String × α)) (k : String) : Option α :=
  (m.find? (fun e => e.1 == k)).map Prod.snd

/-- Whether the object / `Map` has the key. -/
def objHas {α : Type} (m : List (String × α)) (k : String) : Bool :=
  m.any (fun e => e.1 == k)

/-- JS property assignment `obj[k] = v` and `Map.prototype.set`: an
existing key keeps its position and gets the new value, a new key is
appended. -/
def objSet {α : Type} (m : List (String × α)) (k : String) (v : α) :
    List (String × α) :=
  if objHas m k then m.map (fun e => if e.1 == k then (k, v) else e)
  else m ++ [(k, v)]

/-- Reading an integer property (the claims only use it on objects that
have the key, so the `0` default is never exercised there). -/
def mixGet (m : List (String × Int)) (k : String) : Int :=
  (objGet m k).getD 0

/-- `optimizeContentMix(profileAnalysis, industryResearch)`: when the
trend list is non-empty, `baseMix.industryInsights = Math.min(baseMix.industryInsights + 10, 40)`
then `baseMix.educational = Math.max(baseMix.educational - 5, 30)`
(the educational value is read after the industryInsights write, as in
the source). -/
def optimizeContentMix (baseMix : List (String × Int)) (trendCount : Nat) :
    List (String × Int) :=
  if trendCount > 0 then
    let m1 := objSet baseMix "industryInsights"
      (min (mixGet baseMix "industryInsights" + 10) 40)
    objSet m1 "educational" (max (mixGet m1 "educational" - 5) 30)
  else baseMix

/-- The hashtag pools of the spec's concrete example. -/
def sampleHashtagStrategy : HashtagStrategy :=
  { primary := "#Tech"
    secondary := ["#AI", "#Cloud"]
    trending := ["#X"]
    general := ["#G1", "#G2", "#G3"]
    custom := [] }

/-- A concrete strategy (base mix and pools as produced by the profile
analyzer defaults), used for concrete evaluations. -/
def sampleStrategy : Strategy :=
  { contentMix := [("educational", 40), ("industryInsights", 30),
                   ("personalStories", 20), ("engagement", 10)]
    contentThemes := ["Leadership"]
    hashtagStrategy := sampleHashtagStrategy
    postingSchedule :=
      { optimalDays := ["Tuesday", "Wednesday", "Thursday", "Friday"]
        optimalTimes := ["9:00 AM", "10:00 AM", "2:00 PM"] } }

/-!
Scheduler runtime (`AutomatedPosterNode`).  `cron.schedule` creates a
task that starts firing immediately and keeps firing until its `stop()`
method is called; the node keeps a `Map` (`scheduledJobs`) from job id to
the task object.  We model every task ever created in `timers` (tagged
with the job id it was created for and whether it is still active) and
the `Map` in `jobs` (job id → creation index of the task it currently
holds).  The cron expression / `moment` time arithmetic of
`schedulePost` is date-library glue and is not needed by any claim, so
the trigger expression itself is not modelled.
-/

/-- A `node-cron` task: creation index, the job id it was registered
for, and whether `stop()` has not been called on it. -/
structure Timer where
  tid : Nat
  forId : String
  active : Bool
deriving Repr, DecidableEq

/-- The scheduler's mutable state: the fresh-task counter, every task
ever created by `cron.schedule`, and the `scheduledJobs` map. -/
structure SchedState where
  nextTid : Nat
  timers : List Timer
  jobs : List (String × Nat)
deriving Repr, DecidableEq

/-- The job descriptor built by `schedulePost` and mutated by
`executePost` (`error`, `postedTime`, `linkedinPostId` are the fields the
source adds dynamically; they start absent). -/
structure Job where
  id : String
  calendarEntry : CalendarEntry
  status : String
  contentType : String
  theme : String
  error : Option String
  postedTime : Option String
  linkedinPostId : Option String
deriving Repr, DecidableEq

/-- The deterministic job id `` `post_${userId}_${calendarEntry.day}` ``. -/
def jobId (userId : String) (day : Nat) : String :=
  s!"post_{userId}_{day}"

/-- `schedulePost(userId, accessToken, calendarEntry, contentStrategy)`:
build the job descriptor, create a cron task (active immediately), and
`this.scheduledJobs.set(job.id, task)`.  The previously held task for
that id, if any, is not stopped — only the map binding is replaced. -/
def schedulePost (st : SchedState) (userId : String) (e : CalendarEntry) :
    Job × SchedState :=
  let id := jobId userId e.day
  let job : Job :=
    { id := id
      calendarEntry := e
      status := "scheduled"
      contentType := e.contentType
      theme := e.theme
      error := none
      postedTime := none
      linkedinPostId := none }
  (job,
    { nextTid := st.nextTid + 1
      timers := st.timers ++ [{ tid := st.nextTid, forId := id, active := true }]
      jobs := objSet st.jobs id st.nextTid })

/-- Number of still-active cron tasks that were created for the given
job id. -/
def activeTimersFor (st : SchedState) (id : String) : Nat :=
  (st.timers.filter (fun t => t.forId == id && t.active)).length

/-- `getJobStatus(jobId)`: `'active'` iff the id is present in the
`scheduledJobs` map (regardless of whether the task was stopped). -/
def getJobStatus (st : SchedState) (id : String) : String :=
  match objGet st.jobs id with
  | some _ => "active"
  | none => "inactive"

/-- `job.stop()` on the task with the given creation index. -/
def stopTimer (timers : List Timer) (tid : Nat) : List Timer :=
  timers.map (fun t => if t.tid == tid then { t with active := false } else t)

/-- `pauseJob(jobId)`: stop the task held in the map for that id, if
any; the map itself is unchanged. -/
def pauseJob (st : SchedState) (id : String) : SchedState :=
  match objGet st.jobs id with
  | some tid => { st with timers := stopTimer st.timers tid }
  | none => st

/-- `resumeJob(jobId)`: restart the task held in the map for that id,
if any. -/
def resumeJob (st : SchedState) (id : String) : SchedState :=
  match objGet st.jobs id with
  | some tid =>
      { st with timers :=
          st.timers.map (fun t => if t.tid == tid then { t with active := true } else t) }
  | none => st

/-- `stopAllJobs()`: `stop()` every task currently held in the map, then
`clear()` the map. -/
def stopAllJobs (st : SchedState) : SchedState :=
  { st with
    timers := st.timers.map
      (fun t => if st.jobs.any (fun p => p.2 == t.tid)
                then { t with active := false } else t)
    jobs := [] }

/-!
Execution of a fired job (`executePost`) and the LinkedIn adapter
(`LinkedInService`, src/unnamed/part_005).
-/

/-- The result of `LinkedInService.createTextPost` on success. -/
structure PostResult where
  postId : String
deriving Repr, DecidableEq

/-- The `ugcPosts` request body built by `createTextPost`:
`shareCommentary.text` is the `content` argument verbatim — no length
check, truncation, or marker of any kind is applied. -/
structure UgcPost where
  author : String
  lifecycleState : String
  shareCommentary : String
  shareMediaCategory : String
  visibility : String
deriving Repr, DecidableEq

/-- `createTextPost(accessToken, content, visibility)` request payload;
`userId` is the resolved `getUserId(accessToken)`. -/
def createTextPost (userId : String) (content : String) (visibility : String) :
    UgcPost :=
  { author := "urn:li:person:" ++ userId
    lifecycleState := "PUBLISHED"
    shareCommentary := content
    shareMediaCategory := "NONE"
    visibility := visibility }

/-- The row inserted into `content_posts` by `savePostToDatabase`. -/
structure PostRecordInsert where
  userId : String
  title : String
  content : String
  hashtags : String
  postType : String
  recStatus : String
  postedTime : String
  linkedinPostId : String
deriving Repr, DecidableEq

/-- `executePost(userId, accessToken, job, contentStrategy)`: generate
content (`synth`, which throws on bad input, e.g. a missing theme), post
it (`deliver`), insert the `content_posts` row, then mark the job
`posted` with `postedTime` and `linkedinPostId`.  On any error the catch
block sets `job.status = 'failed'` and `job.error = error.message` — and
nothing else: no failure timestamp is recorded and no row is inserted. -/
def executePost (userId : String) (job : Job)
    (synth : Except String String)
    (deliver : String → Except String PostResult)
    (now : String) : Job × Option PostRecordInsert :=
  match synth with
  | .error msg => ({ job with status := "failed", error := some msg }, none)
  | .ok content =>
    match deliver content with
    | .error msg => ({ job with status := "failed", error := some msg }, none)
    | .ok r =>
      ({ job with status := "posted", postedTime := some now,
                  linkedinPostId := some r.postId },
       some { userId := userId
              title := job.theme
              content := content
              hashtags := String.intercalate ", " job.calendarEntry.hashtags
              postType := job.contentType
              recStatus := "posted"
              postedTime := now
              linkedinPostId := r.postId })

/-- A batch of independently fired jobs: each job fires with its own
content-synthesis outcome and its own delivery function. -/
def executeBatch (userId : String) (jobs : List Job)
    (runs : List (Except String String × (String → Except String PostResult)))
    (now : String) : List (Job × Option PostRecordInsert) :=
  List.zipWith (fun j r => executePost userId j r.1 r.2 now) jobs runs

/-- The scheduler-level effect of one cron fire of a posting job: the
callback registered by `schedulePost` only awaits `executePost`, whose
body — its catch block included — reads and writes the job object, the
database and the LinkedIn service.  It contains no operation on
`scheduledJobs` or on any cron task, so the scheduler state passes
through unchanged while the job executes. -/
def fireScheduledJob (st : SchedState) (userId : String) (job : Job)
    (synth : Except String String)
    (deliver : String → Except String PostResult)
    (now : String) : SchedState × (Job × Option PostRecordInsert) :=
  (st, executePost userId job synth deliver now)

/-!
Engagement tracking (`trackEngagement` + `LinkedInService.getPostAnalytics`
+ `LinkedInService.savePostAnalytics`).
-/

/-- The metrics object returned by `getPostAnalytics`. -/
structure Analytics where
  likes : Int
  comments : Int
  shares : Int
  impressions : Int
  clicks : Int
deriving Repr, DecidableEq

/-- The all-zero metrics `getPostAnalytics` returns from its catch
block. -/
def zeroAnalytics : Analytics :=
  { likes := 0, comments := 0, shares := 0, impressions := 0, clicks := 0 }

/-- `getPostAnalytics(accessToken, postId)`: on a successful provider
call return the (zero-defaulted) statistics; on any error, catch it,
log, and return all zeros.  It never throws. -/
def getPostAnalytics (fetchResult : Except String Analytics) : Analytics :=
  match fetchResult with
  | .ok a => a
  | .error _ => zeroAnalytics

/-- A `content_posts` row as read and updated by the tracker
(`engagementScore` is a JS number; exact rational arithmetic models
it). -/
structure PostRow where
  rowId : Nat
  linkedinPostId : Option String
  likes : Int
  comments : Int
  shares : Int
  reach : Int
  engagementScore : Rat
deriving Repr, DecidableEq

/-- `savePostAnalytics(userId, postId, analytics)`: overwrite the
metric columns and set
`engagement_score = (likes + comments*2 + shares*3) / Math.max(impressions, 1)`. -/
def savePostAnalytics (row : PostRow) (a : Analytics) : PostRow :=
  { row with
    likes := a.likes
    comments := a.comments
    shares := a.shares
    reach := a.impressions
    engagementScore :=
      ((a.likes : Rat) + (a.comments : Rat) * 2 + (a.shares : Rat) * 3)
        / max (a.impressions : Rat) 1 }

/-- One iteration of the `trackEngagement` loop body for a row of the
trailing-7-day query: rows without a `linkedin_post_id` are skipped,
otherwise the (never-throwing) analytics fetch result is written back.
`fetch` gives the provider outcome per LinkedIn post id. -/
def trackEngagementStep (fetch : String → Except String Analytics)
    (row : PostRow) : PostRow :=
  match row.linkedinPostId with
  | some pid => savePostAnalytics row (getPostAnalytics (fetch pid))
  | none => row

/-- `trackEngagement(userId, accessToken)` over the rows returned by
`getRecentPosts` (posts of the trailing 7 days).  The try/catch around
the loop can only abort it if an iteration throws; `getPostAnalytics`
never throws (it catches internally), so every row is processed, each
depending only on its own fetch outcome. -/
def trackEngagement (rows : List PostRow)
    (fetch : String → Except String Analytics) : List PostRow :=
  rows.map (trackEngagementStep fetch)

/-!
Concrete inputs used to evaluate the embedding (counterexamples and
witnesses).
-/

/-- A base content mix with the profile-analyzer keys but
`industryInsights = 35`, where `Math.min(35 + 10, 40) = 40` differs from
a clamp of `45` to `[0,100]`. -/
def c7BaseMix : List (String × Int) :=
  [("educational", 40), ("industryInsights", 35), ("personalStories", 15),
   ("engagement", 10)]

/-- The first entry of
`createContentCalendar sampleStrategy 5 1 (fun _ l => l) (fun d => d)`
(day 1 falls on a Monday; identity shuffle picks pool index 1, which is
`educational`; Monday is not an optimal day, so the default time is
used). -/
def c5Entry : CalendarEntry :=
  { day := 1
    date := 1
    dayOfWeek := "Monday"
    contentType := "educational"
    theme := "Leadership"
    hashtags := ["#Tech", "#Cloud", "#X", "#G1", "#G2"]
    optimalTime := "10:00 AM"
    status := "planned" }

/-- The first entry of the calendar for a strategy whose content mix is
`{educational: 100}` and whose theme list is empty. -/
def c9Entry : CalendarEntry :=
  { day := 1
    date := 1
    dayOfWeek := "Monday"
    contentType := "educational"
    theme := "Professional Development"
    hashtags := ["#Tech", "#Cloud", "#X", "#G1", "#G2"]
    optimalTime := "10:00 AM"
    status := "planned" }

/-- A scheduler state holding one registered job with one active task. -/
def c10State : SchedState :=
  { nextTid := 1
    timers := [{ tid := 0, forId := "post_u1_1", active := true }]
    jobs := [("post_u1_1", 0)] }

/-- A tracked post row with non-zero stored metrics. -/
def c3Row : PostRow :=
  { rowId := 1
    linkedinPostId := some "p1"
    likes := 5
    comments := 1
    shares := 0
    reach := 100
    engagementScore := 7 / 100 }

/-- A second tracked post row, delivered under a different provider id. -/
def c3RowB : PostRow :=
  { rowId := 2
    linkedinPostId := some "p2"
    likes := 2
    comments := 0
    shares := 1
    reach := 50
    engagementScore := 1 / 10 }

/-- Fresh provider metrics for the post that fetches successfully. -/
def c3Analytics : Analytics :=
  { likes := 4, comments := 2, shares := 1, impressions := 200, clicks := 3 }

/-- A provider whose metrics call fails for post `p1` and succeeds for
every other post. -/
def c3Fetch : String → Except String Analytics :=
  fun s => if s = "p1" then .error "network" else .ok c3Analytics

/-- A scheduled job about to fire. -/
def c4Job : Job :=
  { id := "post_u1_1"
    calendarEntry := c5Entry
    status := "scheduled"
    contentType := "educational"
    theme := "Leadership"
    error := none
    postedTime := none
    linkedinPostId := none }

/-- A delivery that succeeds. -/
def okDeliver : String → Except String PostResult :=
  fun _ => .ok { postId := "urn:li:share:1" }

/-- A delivery that raises (`createTextPost` rethrows every axios failure
as `'Failed to create post'`). -/
def failDeliver : String → Except String PostResult :=
  fun _ => .error "Failed to create post"

/-- A synthesized post text of 3001 characters, above LinkedIn's
3000-character share limit. -/
def longContent : String := String.mk (List.replicate 3001 'a')

/-!
Helper lemmas about the association-list object model.
-/

theorem objSet_cons_ne {α : Type} {e : String × α} {k : String} (he : ¬ e.1 = k)
    (t : List (String × α)) (v : α) :
    objSet (e :: t) k v = e :: objSet t k v := by
  by_cases ht : (t.any fun x => x.1 == k) = true <;>
    simp [objSet, objHas, he, ht]

theorem objGet_objSet_self {α : Type} (m : List (String × α)) (k : String) (v : α) :
    objGet (objSet m k v) k = some v := by
  induction m with
  | nil => simp [objSet, objHas, objGet]
  | cons e t ih =>
    by_cases he : e.1 = k
    · simp [objSet, objHas, he, objGet, List.find?_cons]
    · rw [objSet_cons_ne he]
      simpa [objGet, List.find?_cons, he] using ih

theorem objGet_cons_ne {α : Type} {e : String × α} {k : String} (he : ¬ e.1 = k)
    (t : List (String × α)) :
    objGet (e :: t) k = objGet t k := by
  simp [objGet, List.find?_cons, he]

theorem objGet_map_replace_ne {α : Type} (t : List (String × α)) (k k' : String)
    (v : α) (hkk : ¬ k' = k) :
    objGet (t.map (fun x => if x.1 == k then (k, v) else x)) k' = objGet t k' := by
  induction t with
  | nil => rfl
  | cons e t ih =>
    by_cases he : e.1 = k
    · have h1 : ¬ ((k, v) : String × α).1 = k' := fun h => hkk h.symm
      have h2 : ¬ e.1 = k' := by rw [he]; exact fun h => hkk h.symm
      rw [List.map_cons, if_pos (by simp [he]), objGet_cons_ne h1, ih,
        objGet_cons_ne h2]
    · by_cases he' : e.1 = k'
      · rw [List.map_cons, if_neg (by simp [he])]
        simp [objGet, List.find?_cons, he']
      · rw [List.map_cons, if_neg (by simp [he]), objGet_cons_ne he',
          objGet_cons_ne he', ih]

theorem objGet_objSet_ne {α : Type} (m : List (String × α)) (k k' : String) (v : α)
    (hkk : ¬ k' = k) :
    objGet (objSet m k v) k' = objGet m k' := by
  induction m with
  | nil =>
    have hb : (k == k') = false := by
      simp only [beq_eq_false_iff_ne, ne_eq]
      exact fun h => hkk h.symm
    simp [objSet, objHas, objGet, List.find?_cons, hb]
  | cons e t ih =>
    by_cases he : e.1 = k
    · have hhas : objHas (e :: t) k = true := by simp [objHas, he]
      have hrw : objSet (e :: t) k v
          = (k, v) :: t.map (fun x => if x.1 == k then (k, v) else x) := by
        simp [objSet, hhas, List.map_cons, he]
      have h1 : ¬ ((k, v) : String × α).1 = k' := fun h => hkk h.symm
      have h2 : ¬ e.1 = k' := by rw [he]; exact fun h => hkk h.symm
      rw [hrw, objGet_cons_ne h1, objGet_map_replace_ne t k k' v hkk,
        objGet_cons_ne h2]
    · rw [objSet_cons_ne he]
      by_cases he' : e.1 = k'
      · simp [objGet, List.find?_cons, he']
      · rw [objGet_cons_ne he', objGet_cons_ne he']
        exact ih

theorem mixGet_objSet_self (m : List (String × Int)) (k : String) (v : Int) :
    mixGet (objSet m k v) k = v := by
  rw [mixGet, objGet_objSet_self]
  rfl

theorem mixGet_objSet_ne (m : List (String × Int)) (k k' : String) (v : Int)
    (hkk : ¬ k' = k) :
    mixGet (objSet m k v) k' = mixGet m k' := by
  rw [mixGet, objGet_objSet_ne m k k' v hkk, mixGet]

theorem map_replace_of_not_has {α : Type} (t : List (String × α)) (k : String)
    (v : α) (h : ∀ x ∈ t, ¬ x.1 = k) :
    t.map (fun x => if x.1 == k then (k, v) else x) = t := by
  rw [List.map_congr_left, List.map_id]
  intro x hx
  simp [h x hx]

theorem filter_key_eq_nil {α : Type} (t : List (String × α)) (k : String)
    (h : ∀ x ∈ t, ¬ x.1 = k) :
    t.filter (fun p => p.1 == k) = [] := by
  rw [List.filter_eq_nil_iff]
  intro x hx
  simp [h x hx]

theorem objSet_bindings_one {α : Type} (m : List (String × α)) (k : String) (v : α)
    (h : (m.map Prod.fst).Nodup) :
    ((objSet m k v).filter (fun p => p.1 == k)).length = 1 := by
  induction m with
  | nil => simp [objSet, objHas, List.filter_cons]
  | cons e t ih =>
    rw [List.map_cons, List.nodup_cons] at h
    obtain ⟨hnot, hnd⟩ := h
    by_cases he : e.1 = k
    · have hkeys : ∀ x ∈ t, ¬ x.1 = k := by
        intro x hx hxk
        refine hnot ?_
        rw [he, ← hxk]
        exact List.mem_map_of_mem Prod.fst hx
      have hhas : objHas (e :: t) k = true := by simp [objHas, he]
      rw [objSet, if_pos hhas, List.map_cons, if_pos (by simp [he]),
        map_replace_of_not_has t k v hkeys]
      simp [List.filter_cons, filter_key_eq_nil t k hkeys]
    · rw [objSet_cons_ne he]
      simp [List.filter_cons, he, ih hnd]

theorem objSet_keys_nodup {α : Type} (m : List (String × α)) (k : String) (v : α)
    (h : (m.map Prod.fst).Nodup) :
    ((objSet m k v).map Prod.fst).Nodup := by
  by_cases hhas : objHas m k = true
  · rw [objSet, if_pos hhas, List.map_map]
    have hsame : m.map (Prod.fst ∘ fun e => if e.1 == k then (k, v) else e)
        = m.map Prod.fst := by
      refine List.map_congr_left ?_
      intro x _
      by_cases hx : x.1 = k <;> simp [hx, Function.comp]
    rw [hsame]
    exact h
  · rw [objSet, if_neg hhas, List.map_append]
    rw [List.nodup_append]
    refine ⟨h, List.nodup_singleton _, ?_⟩
    intro a ha hb
    simp only [List.map_cons, List.map_nil, List.mem_singleton] at hb
    subst hb
    simp only [objHas] at hhas
    rw [List.mem_map] at ha
    obtain ⟨x, hx, hxk⟩ := ha
    refine hhas ?_
    rw [List.any_eq_true]
    exact ⟨x, hx, by simp [hxk]⟩

/-!
Helper lemmas about the Calendar Builder.
-/

theorem dowName_not_weekend {d : Nat} (h : isWeekend d = false) :
    dowName d ≠ "Saturday" ∧ dowName d ≠ "Sunday" := by
  simp only [isWeekend, Bool.or_eq_false_iff, beq_eq_false_iff_ne, ne_eq] at h
  have h7 : d % 7 < 7 := Nat.mod_lt _ (by norm_num)
  have hcase : d % 7 = 1 ∨ d % 7 = 2 ∨ d % 7 = 3 ∨ d % 7 = 4 ∨ d % 7 = 5 := by
    omega
  rcases hcase with h1 | h1 | h1 | h1 | h1 <;> simp [dowName, h1]

theorem length_filterMap_ite {α β : Type} (p : α → Bool) (f : α → β)
    (l : List α) :
    (l.filterMap (fun a => if p a then none else some (f a))).length
      = (l.filter (fun a => !p a)).length := by
  induction l with
  | nil => rfl
  | cons a t ih =>
    by_cases h : p a <;>
      simp [List.filterMap_cons, List.filter_cons, h, ih]

theorem mem_createContentCalendar {strategy : Strategy} {duration startDay : Nat}
    {shuffle : Nat → List String → List String} {dom : Nat → Nat}
    {e : CalendarEntry}
    (he : e ∈ createContentCalendar strategy duration startDay shuffle dom) :
    ∃ i, i < duration ∧ isWeekend (startDay + i) = false ∧
      e = { day := i + 1
            date := startDay + i
            dayOfWeek := dowName (startDay + i)
            contentType := selectContentType strategy.contentMix (i + 1) (shuffle (i + 1))
            theme := selectTheme strategy.contentThemes (i + 1)
            hashtags := selectHashtags strategy.hashtagStrategy (i + 1)
            optimalTime := selectOptimalTime strategy.postingSchedule (startDay + i) dom
            status := "planned" } := by
  rw [createContentCalendar, List.mem_filterMap] at he
  obtain ⟨i, hi, hf⟩ := he
  rw [List.mem_range] at hi
  by_cases hw : isWeekend (startDay + i)
  · simp [hw] at hf
  · refine ⟨i, hi, by simpa using hw, ?_⟩
    simp only [Bool.not_eq_true] at hw
    rw [if_neg (by simp [hw])] at hf
    exact (Option.some_inj.mp hf).symm

theorem selectContentType_all_educational (day : Nat)
    (shuffle : List String → List String)
    (hperm : ∀ l, (shuffle l).Perm l) :
    selectContentType [("educational", 100)] day shuffle = "educational" := by
  have hpool : typesPool [("educational", 100)] = List.replicate 20 "educational" := by
    decide
  have hp := hperm (typesPool [("educational", 100)])
  have hlen : (shuffle (typesPool [("educational", 100)])).length = 20 := by
    rw [hp.length_eq, hpool, List.length_replicate]
  simp only [selectContentType]
  rw [if_neg (by rw [hlen]; norm_num)]
  have hidx : day % (shuffle (typesPool [("educational", 100)])).length
      < (shuffle (typesPool [("educational", 100)])).length := by
    rw [hlen]
    exact Nat.mod_lt _ (by norm_num)
  have hv : (shuffle (typesPool [("educational", 100)])).getD
      (day % (shuffle (typesPool [("educational", 100)])).length) ""
      ∈ shuffle (typesPool [("educational", 100)]) := by
    rw [List.getD_eq_getElem?_getD, List.getElem?_eq_getElem hidx, Option.getD_some]
    exact List.getElem_mem hidx
  have heq : (shuffle (typesPool [("educational", 100)])).getD
      (day % (shuffle (typesPool [("educational", 100)])).length) "" = "educational" :=
    List.eq_of_mem_replicate (hpool ▸ hp.subset hv)
  rw [heq, if_neg (by decide)]

/-!
Claim theorems.
-/

/-- Claim C1, counterexample: with duration 7 starting on a Monday, the
calendar has 5 entries, not 7 — the loop scans exactly `duration`
calendar days and drops the weekend days, so the calendar does not
contain exactly `duration` entries. -/
theorem C1_counterexample :
    (createContentCalendar sampleStrategy 7 1 (fun _ l => l) (fun d => d)).length = 5
    ∧ (5 : Nat) ≠ 7 := by
  refine ⟨by decide, by decide⟩

/-- Claim C1, amended: for every strategy, duration in [1,30], start
day, shuffle and day-of-month function, the Calendar Builder scans
exactly `duration` consecutive calendar days starting today and emits
one entry per non-weekend day scanned, so the calendar length equals the
number of non-weekend days among those `duration` days, and is at most
`duration` — duration bounds the span of days scanned, not the number of
posts. -/
theorem C1_amended (strategy : Strategy) (duration startDay : Nat)
    (shuffle : Nat → List String → List String) (dom : Nat → Nat)
    (_h1 : 1 ≤ duration) (_h2 : duration ≤ 30) :
    (createContentCalendar strategy duration startDay shuffle dom).length
      = ((List.range duration).filter (fun i => !isWeekend (startDay + i))).length
    ∧ (createContentCalendar strategy duration startDay shuffle dom).length
      ≤ duration := by
  have hlen : (createContentCalendar strategy duration startDay shuffle dom).length
      = ((List.range duration).filter (fun i => !isWeekend (startDay + i))).length := by
    rw [createContentCalendar]
    exact length_filterMap_ite (fun i => isWeekend (startDay + i)) _ _
  refine ⟨hlen, ?_⟩
  rw [hlen]
  calc ((List.range duration).filter (fun i => !isWeekend (startDay + i))).length
      ≤ (List.range duration).length := List.length_filter_le _ _
    _ = duration := List.length_range _

/-- Claim C1, witness: the amended statement evaluated at the sample
strategy with duration 7 starting on a Monday. -/
theorem C1_amended_witness :
    (createContentCalendar sampleStrategy 7 1 (fun _ l => l) (fun d => d)).length
      = ((List.range 7).filter (fun i => !isWeekend (1 + i))).length
    ∧ (createContentCalendar sampleStrategy 7 1 (fun _ l => l) (fun d => d)).length
      ≤ 7 :=
  C1_amended sampleStrategy 7 1 (fun _ l => l) (fun d => d) (by norm_num) (by norm_num)

/-- Claim C2, counterexample: registering the same CalendarEntry twice
from the empty scheduler state leaves two active cron tasks for the
deterministic job id — `Map.set` replaces only the registry binding and
never stops the previously created task, so "exactly one active timer
per job id" fails. -/
theorem C2_counterexample :
    activeTimersFor
      (schedulePost (schedulePost ⟨0, [], []⟩ "u1" c5Entry).2 "u1" c5Entry).2
      (jobId "u1" c5Entry.day) = 2
    ∧ (2 : Nat) ≠ 1 := by
  refine ⟨by decide, by decide⟩

/-- Claim C2, amended: compiling the same CalendarEntry twice yields the
same deterministic job id and the registry keeps exactly one binding for
that id (set replaces), but the previously created timer is not stopped:
each registration adds a fresh active timer, so after re-registering
there are two more active timers for that id than before. -/
theorem C2_amended (st : SchedState) (userId : String) (e : CalendarEntry)
    (hkeys : (st.jobs.map Prod.fst).Nodup) :
    (schedulePost st userId e).1.id
      = (schedulePost (schedulePost st userId e).2 userId e).1.id
    ∧ ((schedulePost (schedulePost st userId e).2 userId e).2.jobs.filter
        (fun p => p.1 == jobId userId e.day)).length = 1
    ∧ activeTimersFor (schedulePost (schedulePost st userId e).2 userId e).2
        (jobId userId e.day)
      = activeTimersFor st (jobId userId e.day) + 2 := by
  refine ⟨rfl, ?_, ?_⟩
  · exact objSet_bindings_one _ _ _
      (objSet_keys_nodup st.jobs (jobId userId e.day) st.nextTid hkeys)
  · simp [activeTimersFor, schedulePost, List.filter_append]

/-- Claim C2, witness: the amended statement evaluated from the empty
scheduler state. -/
theorem C2_amended_witness :
    (schedulePost ⟨0, [], []⟩ "u1" c5Entry).1.id
      = (schedulePost (schedulePost ⟨0, [], []⟩ "u1" c5Entry).2 "u1" c5Entry).1.id
    ∧ ((schedulePost (schedulePost ⟨0, [], []⟩ "u1" c5Entry).2 "u1" c5Entry).2.jobs.filter
        (fun p => p.1 == jobId "u1" c5Entry.day)).length = 1
    ∧ activeTimersFor (schedulePost (schedulePost ⟨0, [], []⟩ "u1" c5Entry).2 "u1" c5Entry).2
        (jobId "u1" c5Entry.day)
      = activeTimersFor ⟨0, [], []⟩ (jobId "u1" c5Entry.day) + 2 :=
  C2_amended ⟨0, [], []⟩ "u1" c5Entry (by decide)

/-- Claim C3, counterexample: when the provider metrics fetch fails for
a record, the Engagement Tracker does not leave it unchanged — the
adapter's catch block returns all-zero metrics and the record is
overwritten with them. -/
theorem C3_counterexample :
    trackEngagement [c3Row] (fun _ => .error "network") ≠ [c3Row] := by
  decide

/-- Claim C3, amended: if the provider metrics fetch fails for one
record, the failure is absorbed inside `getPostAnalytics` (which returns
all-zero metrics), so the record is overwritten with zeroed metrics and
engagementScore 0 rather than left unchanged; the loop is not aborted,
and every other eligible record whose fetch succeeds is still updated
with its recomputed engagementScore. -/
theorem C3_amended (rows : List PostRow) (fetch : String → Except String Analytics)
    (pid msg : String) (i : Nat) (r : PostRow) (pid2 : String) (a : Analytics)
    (hfail : fetch pid = .error msg) (hr : rows[i]? = some r) :
    (r.linkedinPostId = some pid →
      (trackEngagement rows fetch)[i]? = some (savePostAnalytics r zeroAnalytics)
      ∧ (savePostAnalytics r zeroAnalytics).engagementScore = 0)
    ∧ (r.linkedinPostId = some pid2 → fetch pid2 = .ok a →
      (trackEngagement rows fetch)[i]? = some (savePostAnalytics r a)) := by
  have hget : (trackEngagement rows fetch)[i]?
      = some (trackEngagementStep fetch r) := by
    simp [trackEngagement, List.getElem?_map, hr]
  constructor
  · intro hpid
    refine ⟨?_, ?_⟩
    · rw [hget, trackEngagementStep, hpid]
      simp [getPostAnalytics, hfail]
    · simp [savePostAnalytics, zeroAnalytics]
  · intro hpid hok
    rw [hget, trackEngagementStep, hpid]
    simp [getPostAnalytics, hok]

/-- Claim C3, witness: the amended statement evaluated on two rows with
a provider that fails on the first row's post id. -/
theorem C3_amended_witness :
    (c3Row.linkedinPostId = some "p1" →
      (trackEngagement [c3Row, c3RowB] c3Fetch)[0]?
        = some (savePostAnalytics c3Row zeroAnalytics)
      ∧ (savePostAnalytics c3Row zeroAnalytics).engagementScore = 0)
    ∧ (c3Row.linkedinPostId = some "p2" → c3Fetch "p2" = .ok c3Analytics →
      (trackEngagement [c3Row, c3RowB] c3Fetch)[0]?
        = some (savePostAnalytics c3Row c3Analytics)) :=
  C3_amended [c3Row, c3RowB] c3Fetch "p1" "network" 0 c3Row "p2" c3Analytics rfl rfl

/-- Claim C4, counterexample: when delivery raises, `executePost` sets
only `status = 'failed'` and `error` on the job — the resulting job is
exactly the input with those two fields changed, and no timestamp of the
failure is recorded anywhere on it (`postedTime` stays absent); no
PostRecord row is produced. -/
theorem C4_counterexample :
    (executePost "u1" c4Job (.ok "post text")
        (fun _ => .error "Failed to create post") "2026-10-11T09:00:00Z").1
      = { c4Job with status := "failed", error := some "Failed to create post" }
    ∧ (executePost "u1" c4Job (.ok "post text")
        (fun _ => .error "Failed to create post") "2026-10-11T09:00:00Z").1.postedTime
      = none
    ∧ (executePost "u1" c4Job (.ok "post text")
        (fun _ => .error "Failed to create post") "2026-10-11T09:00:00Z").2 = none :=
  ⟨rfl, rfl, rfl⟩

/-- Claim C4, amended: when delivery raises, the job transitions
scheduled → failed with the error message recorded (but no timestamp),
no PostRecord is created, and no other scheduled job's timer or
execution is cancelled or altered by the failure: the failing fire
leaves every job's registry status and active-timer count exactly as
they were, and in a batch of independently fired jobs, replacing the run
of job `i` (e.g. making it fail) does not change the result of any other
job `j`. -/
theorem C4_amended (userId : String) (st : SchedState) (job : Job)
    (content : String) (deliver : String → Except String PostResult)
    (msg now : String) (id2 : String)
    (jobs : List Job)
    (runs : List (Except String String × (String → Except String PostResult)))
    (run' : Except String String × (String → Except String PostResult))
    (i j : Nat)
    (hfail : deliver content = .error msg) (hij : i ≠ j) :
    (executePost userId job (.ok content) deliver now).1.status = "failed"
    ∧ (executePost userId job (.ok content) deliver now).1.error = some msg
    ∧ (executePost userId job (.ok content) deliver now).2 = none
    ∧ getJobStatus (fireScheduledJob st userId job (.ok content) deliver now).1 id2
        = getJobStatus st id2
    ∧ activeTimersFor (fireScheduledJob st userId job (.ok content) deliver now).1 id2
        = activeTimersFor st id2
    ∧ (executeBatch userId jobs (runs.set i run') now)[j]?
        = (executeBatch userId jobs runs now)[j]? := by
  have hexec : executePost userId job (.ok content) deliver now
      = ({ job with status := "failed", error := some msg }, none) := by
    rw [executePost]
    simp [hfail]
  refine ⟨by rw [hexec], by rw [hexec], by rw [hexec], rfl, rfl, ?_⟩
  rw [executeBatch, executeBatch, List.getElem?_zipWith', List.getElem?_zipWith',
    List.getElem?_set_ne hij]

/-- Claim C4, witness: the amended statement evaluated on a concrete
failing delivery fired against a one-job scheduler state (whose
registered job keeps its status and its active timer), and a two-job
batch where job 0's run is replaced by a failing one and job 1's result
is unchanged. -/
theorem C4_amended_witness :
    (executePost "u1" c4Job (.ok "post text") failDeliver "2026-10-11T09:00:00Z").1.status
      = "failed"
    ∧ (executePost "u1" c4Job (.ok "post text") failDeliver "2026-10-11T09:00:00Z").1.error
      = some "Failed to create post"
    ∧ (executePost "u1" c4Job (.ok "post text") failDeliver "2026-10-11T09:00:00Z").2
      = none
    ∧ getJobStatus (fireScheduledJob c10State "u1" c4Job (.ok "post text")
          failDeliver "2026-10-11T09:00:00Z").1 "post_u1_1"
        = getJobStatus c10State "post_u1_1"
    ∧ activeTimersFor (fireScheduledJob c10State "u1" c4Job (.ok "post text")
          failDeliver "2026-10-11T09:00:00Z").1 "post_u1_1"
        = activeTimersFor c10State "post_u1_1"
    ∧ (executeBatch "u1" [c4Job, c4Job]
        ([(.ok "post text", okDeliver), (.ok "post text", okDeliver)].set 0
          (.ok "post text", failDeliver)) "2026-10-11T09:00:00Z")[1]?
        = (executeBatch "u1" [c4Job, c4Job]
            [(.ok "post text", okDeliver), (.ok "post text", okDeliver)]
            "2026-10-11T09:00:00Z")[1]? :=
  C4_amended "u1" c10State c4Job "post text" failDeliver "Failed to create post"
    "2026-10-11T09:00:00Z" "post_u1_1" [c4Job, c4Job]
    [(.ok "post text", okDeliver), (.ok "post text", okDeliver)]
    (.ok "post text", failDeliver) 0 1 rfl (by decide)

/-- Claim C5: for every strategy, duration in [1,30], start day, shuffle
and day-of-month function, every CalendarEntry produced by the Calendar
Builder has a weekday that is never Saturday or Sunday. -/
theorem C5_theorem (strategy : Strategy) (duration startDay : Nat)
    (shuffle : Nat → List String → List String) (dom : Nat → Nat)
    (_h1 : 1 ≤ duration) (_h2 : duration ≤ 30) :
    ∀ e ∈ createContentCalendar strategy duration startDay shuffle dom,
      e.dayOfWeek ≠ "Saturday" ∧ e.dayOfWeek ≠ "Sunday" := by
  intro e he
  obtain ⟨i, _, hw, rfl⟩ := mem_createContentCalendar he
  exact dowName_not_weekend hw

/-- Claim C5, witness: the statement evaluated at a concrete member of
the sample calendar. -/
theorem C5_witness :
    c5Entry.dayOfWeek ≠ "Saturday" ∧ c5Entry.dayOfWeek ≠ "Sunday" :=
  C5_theorem sampleStrategy 5 1 (fun _ l => l) (fun d => d)
    (by norm_num) (by norm_num) c5Entry (by decide)

/-- Claim C6, counterexample: the source never deduplicates the hashtag
list — with a strategy whose secondary pool repeats the primary hashtag,
the produced list contains a duplicate. -/
theorem C6_counterexample :
    ¬ (selectHashtags
        { primary := "#A", secondary := ["#A"], trending := [], general := [],
          custom := [] } 1).Nodup := by
  decide

/-- Claim C6, amended: for every hashtag strategy and day index the
produced list has at most 5 entries and includes the primary hashtag
whenever one is present; duplicates are not removed in general, but with
the example pools (primary #Tech, secondary #AI/#Cloud, trending #X,
general #G1/#G2/#G3) the list has no duplicates and always includes
#Tech. -/
theorem C6_amended (hs : HashtagStrategy) (day : Nat) (hp : hs.primary ≠ "") :
    (selectHashtags hs day).length ≤ 5
    ∧ hs.primary ∈ selectHashtags hs day
    ∧ (selectHashtags sampleHashtagStrategy day).Nodup
    ∧ "#Tech" ∈ selectHashtags sampleHashtagStrategy day := by
  have hsam : selectHashtags sampleHashtagStrategy day
      = ["#Tech", ["#AI", "#Cloud"].getD (day % 2) "", "#X", "#G1", "#G2"] := by
    simp [selectHashtags, sampleHashtagStrategy, Nat.mod_one]
  have h2 : day % 2 = 0 ∨ day % 2 = 1 := Nat.mod_two_eq_zero_or_one day
  refine ⟨?_, ?_, ?_, ?_⟩
  · exact List.length_take_le 5 _
  · simp [selectHashtags, hp, List.take_cons]
  · rcases h2 with h | h <;> rw [hsam, h] <;> decide
  · rcases h2 with h | h <;> rw [hsam, h] <;> decide

/-- Claim C6, witness: the amended statement evaluated at the example
pools and day index 0. -/
theorem C6_amended_witness :
    (selectHashtags sampleHashtagStrategy 0).length ≤ 5
    ∧ sampleHashtagStrategy.primary ∈ selectHashtags sampleHashtagStrategy 0
    ∧ (selectHashtags sampleHashtagStrategy 0).Nodup
    ∧ "#Tech" ∈ selectHashtags sampleHashtagStrategy 0 :=
  C6_amended sampleHashtagStrategy 0 (by decide)

/-- Claim C7, counterexample: with a base mix whose industryInsights is
35 and non-empty trend data, the code produces
`min(35 + 10, 40) = 40`, while clamping `35 + 10` to `[0,100]` would
give 45 — the adjustment is capped at 40, not clamped to `[0,100]`. -/
theorem C7_counterexample :
    mixGet (optimizeContentMix c7BaseMix 1) "industryInsights" = 40
    ∧ min (max (mixGet c7BaseMix "industryInsights" + 10) 0) 100 = 45
    ∧ (40 : Int) ≠ 45 := by
  refine ⟨by decide, by decide, by decide⟩

/-- Claim C7, amended: for every base content mix having the
industryInsights and educational keys, when trend data is non-empty the
Strategy Synthesizer sets industryInsights to
`min(base + 10, 40)` (capped above at 40) and educational to
`max(base - 5, 30)` (floored below at 30). -/
theorem C7_amended (baseMix : List (String × Int)) (trendCount : Nat)
    (_hI : objHas baseMix "industryInsights" = true)
    (_hE : objHas baseMix "educational" = true)
    (ht : 0 < trendCount) :
    mixGet (optimizeContentMix baseMix trendCount) "industryInsights"
      = min (mixGet baseMix "industryInsights" + 10) 40
    ∧ mixGet (optimizeContentMix baseMix trendCount) "educational"
      = max (mixGet baseMix "educational" - 5) 30 := by
  have hne : ¬ ("educational" : String) = "industryInsights" := by decide
  have hne' : ¬ ("industryInsights" : String) = "educational" := by decide
  simp only [optimizeContentMix, if_pos ht]
  constructor
  · rw [mixGet_objSet_ne _ _ _ _ hne', mixGet_objSet_self]
  · rw [mixGet_objSet_self, mixGet_objSet_ne _ _ _ _ hne]

/-- Claim C7, witness: the amended statement evaluated at the concrete
base mix with industryInsights 35. -/
theorem C7_amended_witness :
    mixGet (optimizeContentMix c7BaseMix 1) "industryInsights"
      = min (mixGet c7BaseMix "industryInsights" + 10) 40
    ∧ mixGet (optimizeContentMix c7BaseMix 1) "educational"
      = max (mixGet c7BaseMix "educational" - 5) 30 :=
  C7_amended c7BaseMix 1 (by decide) (by decide) (by decide)

/-- Claim C8, counterexample: the dispatcher performs no size
enforcement — a 3001-character synthesized text (above LinkedIn's
3000-character share limit) is placed in the request body verbatim, with
no truncation and no marker. -/
theorem C8_counterexample :
    (createTextPost "u1" longContent "PUBLIC").shareCommentary = longContent
    ∧ 3000 < longContent.length := by
  refine ⟨rfl, ?_⟩
  have h : longContent.length = 3001 := by
    show (List.replicate 3001 'a').length = 3001
    rw [List.length_replicate]
  omega

/-- Claim C8, amended: the Delivery Dispatcher applies no size limit at
all — for every synthesized text, the dispatched `shareCommentary.text`
equals the input text unchanged, regardless of its length. -/
theorem C8_amended (userId content visibility : String) :
    (createTextPost userId content visibility).shareCommentary = content := rfl

/-- Claim C9: given a strategy whose contentMix is {educational: 100},
every CalendarEntry generated by the Calendar Builder has contentType
'educational', for every duration in [1,30], every start day, and every
outcome of the per-run shuffle (any permutation-producing shuffle). -/
theorem C9_theorem (duration startDay : Nat) (themes : List String)
    (hs : HashtagStrategy) (ps : PostingSchedule)
    (shuffle : Nat → List String → List String) (dom : Nat → Nat)
    (hperm : ∀ d l, (shuffle d l).Perm l)
    (_h1 : 1 ≤ duration) (_h2 : duration ≤ 30) :
    ∀ e ∈ createContentCalendar
        { contentMix := [("educational", 100)]
          contentThemes := themes
          hashtagStrategy := hs
          postingSchedule := ps } duration startDay shuffle dom,
      e.contentType = "educational" := by
  intro e he
  obtain ⟨i, _, _, rfl⟩ := mem_createContentCalendar he
  exact selectContentType_all_educational (i + 1) (shuffle (i + 1)) (hperm (i + 1))

/-- Claim C9, witness: the statement evaluated at a concrete member of
the calendar of the all-educational strategy. -/
theorem C9_witness : c9Entry.contentType = "educational" :=
  C9_theorem 5 1 [] sampleHashtagStrategy sampleStrategy.postingSchedule
    (fun _ l => l) (fun d => d) (fun _ l => List.Perm.refl l)
    (by norm_num) (by norm_num) c9Entry (by decide)

/-- Claim C10: pausing a job does not remove it from the registry — for
a registered id, after `pauseJob id` the status is still 'active';
status is 'inactive' exactly when the id is absent from the registry;
`stopAllJobs` clears the registry (making every status 'inactive') and
stops every timer the registry referenced. -/
theorem C10_theorem (st : SchedState) (id id2 : String) (t' : Timer)
    (h : (objGet st.jobs id).isSome = true) :
    getJobStatus (pauseJob st id) id = "active"
    ∧ (getJobStatus st id2 = "inactive" ↔ objGet st.jobs id2 = none)
    ∧ (stopAllJobs st).jobs = []
    ∧ getJobStatus (stopAllJobs st) id2 = "inactive"
    ∧ (t' ∈ (stopAllJobs st).timers →
        (st.jobs.any (fun p => p.2 == t'.tid)) = true → t'.active = false) := by
  refine ⟨?_, ?_, rfl, rfl, ?_⟩
  · have hjobs : (pauseJob st id).jobs = st.jobs := by
      rw [pauseJob]
      cases objGet st.jobs id <;> rfl
    obtain ⟨v, hv⟩ := Option.isSome_iff_exists.mp h
    rw [getJobStatus, hjobs, hv]
  · cases h' : objGet st.jobs id2 with
    | some v => simp [getJobStatus, h']
    | none => simp [getJobStatus, h']
  · intro ht' hreg
    rw [stopAllJobs] at ht'
    simp only [List.mem_map] at ht'
    obtain ⟨t, ht, rfl⟩ := ht'
    by_cases hc : (st.jobs.any fun p => p.2 == t.tid) = true
    · simp [hc]
    · simp only [hc, if_neg] at hreg ⊢
      simp at hc
      simp [hc] at hreg

/-- Claim C10, witness: the statement evaluated at a one-job scheduler
state. -/
theorem C10_witness :
    getJobStatus (pauseJob c10State "post_u1_1") "post_u1_1" = "active"
    ∧ (getJobStatus c10State "post_u1_1" = "inactive"
        ↔ objGet c10State.jobs "post_u1_1" = none)
    ∧ (stopAllJobs c10State).jobs = []
    ∧ getJobStatus (stopAllJobs c10State) "post_u1_1" = "inactive"
    ∧ (({ tid := 0, forId := "post_u1_1", active := false } : Timer)
          ∈ (stopAllJobs c10State).timers →
        (c10State.jobs.any (fun p => p.2 == (0 : Nat))) = true →
        (({ tid := 0, forId := "post_u1_1", active := false } : Timer)).active = false) :=
  C10_theorem c10State "post_u1_1" "post_u1_1"
    { tid := 0, forId := "post_u1_1", active := false } (by decide)

end SMCC
